import Mathlib

/-!
Verification of the mu_time POSIX platform implementation
(src/src/platform/mu_time_posix.c against src/inc/platform/mu_time_posix.h).

Shallow embedding: `time_t seconds` and `long nanoseconds` are 64-bit signed
integers on the POSIX-class targets the file is written for, and
`mu_time_rel_t` is `int64_t`; they are modelled as `Int`.  C `/` and `%` on
signed operands truncate toward zero, which is `Int.tdiv` / `Int.tmod`.
A C conversion of a signed value to `uint32_t` reduces it modulo 2^32 into
`[0, 2^32)`.  On 64-bit POSIX platforms `unsigned int` is 32 bits wide, so
arithmetic in which the common type is `unsigned int` wraps modulo 2^32.
-/

/-- `mu_time_abs_t` from mu_time_posix.h: `{ time_t seconds; long nanoseconds; }`. -/
structure mu_time_abs_t where
  seconds : Int
  nanoseconds : Int
deriving DecidableEq, Repr

/-- `struct timespec` as used by `mu_time_now`. -/
structure timespec where
  tv_sec : Int
  tv_nsec : Int
deriving DecidableEq, Repr

/-- `mu_time_rel_max`: `return INT64_MAX;`. -/
def mu_time_rel_max : Int := 9223372036854775807

/-- `mu_time_offset` from mu_time_posix.c: seconds and nanoseconds of
`base + delta` are computed with C truncating division, and only the
nanosecond overflow case (`result.nanoseconds >= 1000000000`) is carried
into seconds; the source has no underflow branch. -/
def mu_time_offset (base : mu_time_abs_t) (delta : Int) : mu_time_abs_t :=
  let s : Int := base.seconds + delta.tdiv 1000000000
  let ns : Int := base.nanoseconds + delta.tmod 1000000000
  if ns ≥ 1000000000 then
    { seconds := s + 1, nanoseconds := ns - 1000000000 }
  else
    { seconds := s, nanoseconds := ns }

/-- `mu_time_difference` from mu_time_posix.c:
`((b.seconds - a.seconds) * 1000000000) + (b.nanoseconds - a.nanoseconds)`. -/
def mu_time_difference (a b : mu_time_abs_t) : Int :=
  (b.seconds - a.seconds) * 1000000000 + (b.nanoseconds - a.nanoseconds)

/-- `mu_time_is_before` from mu_time_posix.c. -/
def mu_time_is_before (a b : mu_time_abs_t) : Bool :=
  (a.seconds < b.seconds) || (a.seconds == b.seconds && a.nanoseconds < b.nanoseconds)

/-- `mu_time_is_after` from mu_time_posix.c. -/
def mu_time_is_after (a b : mu_time_abs_t) : Bool :=
  (a.seconds > b.seconds) || (a.seconds == b.seconds && a.nanoseconds > b.nanoseconds)

/-- C conversion of a signed 64-bit value to `uint32_t`: reduction modulo
2^32 into `[0, 2^32)`. -/
def uint32_of_int (x : Int) : Nat := (x % 4294967296).toNat

/-- `mu_time_rel_from_millis` from mu_time_posix.c:
`(mu_time_rel_t)(milliseconds * 1000000)`.  `milliseconds` is `uint32_t` and
`1000000` is `int`, so the usual arithmetic conversions perform the multiply
in `unsigned int` (32 bits), wrapping modulo 2^32, before the cast to the
64-bit `mu_time_rel_t`. -/
def mu_time_rel_from_millis (milliseconds : Nat) : Int :=
  ((milliseconds * 1000000) % 4294967296 : Nat)

/-- `mu_time_rel_to_millis` from mu_time_posix.c:
`(uint32_t)(delta_t / 1000000)` with C truncating division. -/
def mu_time_rel_to_millis (delta_t : Int) : Nat :=
  uint32_of_int (delta_t.tdiv 1000000)

/-- `mu_time_now` from mu_time_posix.c.  The source declares a local
`struct timespec ts`, calls `clock_gettime(CLOCK_REALTIME, &ts)` discarding
its return value, and returns `{ts.tv_sec, ts.tv_nsec}` unconditionally.
The external call is modelled by its outcome: `some ts` when the clock read
succeeds and fills `ts`, `none` when it fails, in which case the local
variable keeps whatever indeterminate contents the stack held
(`indeterminate`). -/
def mu_time_now (clockOutcome : Option timespec) (indeterminate : timespec) :
    mu_time_abs_t :=
  let ts : timespec :=
    match clockOutcome with
    | some t => t
    | none => indeterminate
  { seconds := ts.tv_sec, nanoseconds := ts.tv_nsec }

/-- Claim C1: the claim states that `mu_time_offset` renormalizes the
nanoseconds component into `[0, 1_000_000_000)` carrying both overflow and
underflow into seconds.  The source only carries overflow: for the
normalized base `{0, 0}` and delta `-1` it returns `{0, -1}`, whose
nanoseconds field is outside `[0, 1_000_000_000)`. -/
theorem mu_time_offset_underflow_not_normalized :
    mu_time_offset ⟨0, 0⟩ (-1) = ⟨0, -1⟩ ∧
    ¬ (0 ≤ (mu_time_offset ⟨0, 0⟩ (-1)).nanoseconds ∧
       (mu_time_offset ⟨0, 0⟩ (-1)).nanoseconds < 1000000000) := by
  decide

/-- Claim C2: the claim states
`mu_time_rel_to_millis (mu_time_rel_from_millis n) = n` for every `n` whose
tick value fits in `mu_time_rel_t`, with `mu_time_rel_from_millis n = n * 1_000_000`.
The source multiplies in 32-bit unsigned arithmetic before widening, so at
`n = 4295` it wraps: `mu_time_rel_from_millis 4295 = 32704 ≠ 4295000000`,
and the round trip returns `0`, not `4295`. -/
theorem mu_time_rel_from_millis_wraps_at_4295 :
    mu_time_rel_from_millis 4295 = 32704 ∧
    mu_time_rel_from_millis 4295 ≠ 4295 * 1000000 ∧
    mu_time_rel_to_millis (mu_time_rel_from_millis 4295) = 0 := by
  decide

/-- Claim C3: for every AbsoluteTime `t` and RelativeTime `d`,
`mu_time_difference t (mu_time_offset t d) = d` (in the exact-integer model
this holds with no range restriction, so in particular whenever `t + d` is
within the representable range). -/
theorem mu_time_difference_offset_cancel (t : mu_time_abs_t) (d : Int) :
    mu_time_difference t (mu_time_offset t d) = d := by
  have h : 1000000000 * d.tdiv 1000000000 + d.tmod 1000000000 = d :=
    Int.tdiv_add_tmod d 1000000000
  obtain ⟨s, ns⟩ := t
  simp only [mu_time_offset, mu_time_difference]
  generalize d.tdiv 1000000000 = q at h
  generalize d.tmod 1000000000 = r at h
  split <;> simp only [] <;> ring_nf <;> omega

/-- Claim C4: the claim states `mu_time_now` returns a defined zero/sentinel
AbsoluteTime when `clock_gettime` fails.  The source discards the
`clock_gettime` return value and unconditionally returns the local
`timespec`, so on failure the result is the indeterminate stack contents:
it varies with them and is not the zero sentinel. -/
theorem mu_time_now_failure_is_indeterminate :
    mu_time_now none ⟨7, 9⟩ = ⟨7, 9⟩ ∧
    mu_time_now none ⟨7, 9⟩ ≠ mu_time_now none ⟨0, 0⟩ ∧
    mu_time_now none ⟨7, 9⟩ ≠ ⟨0, 0⟩ := by
  decide

/-- Claim C6: `mu_time_difference` is anti-symmetric:
`mu_time_difference a b = -(mu_time_difference b a)` for all `a`, `b`,
where `mu_time_difference a b` computes `b - a`. -/
theorem mu_time_difference_antisymm (a b : mu_time_abs_t) :
    mu_time_difference a b = -(mu_time_difference b a) := by
  simp only [mu_time_difference]
  ring

/-- Claim C7: `mu_time_rel_max` is the largest `int64_t` value `2^63 - 1`,
and offsetting `{1000, 0}` by it yields a time that is after `{1000, 0}`
and not before it: the structured representation does not wrap into the
past at the maximum relative time. -/
theorem mu_time_offset_rel_max_is_after :
    mu_time_rel_max = 2 ^ 63 - 1 ∧
    mu_time_is_after (mu_time_offset ⟨1000, 0⟩ mu_time_rel_max) ⟨1000, 0⟩ = true ∧
    mu_time_is_before (mu_time_offset ⟨1000, 0⟩ mu_time_rel_max) ⟨1000, 0⟩ = false := by
  decide

/-- Claim C8: `mu_time_offset {1000, 500_000_000} 1_500_000_000`
returns exactly `{1002, 0}`. -/
theorem mu_time_offset_concrete_carry :
    mu_time_offset ⟨1000, 500000000⟩ 1500000000 = ⟨1002, 0⟩ := by
  decide

/-- Claim C5: `mu_time_is_before` and `mu_time_is_after` form a strict
total order decided lexicographically by seconds then nanoseconds: both are
irreflexive, `mu_time_is_before a b = mu_time_is_after b a`, and exactly
one of `is_before a b`, `is_before b a`, `a = b` holds (proved for all
values, hence in particular for normalized ones). -/
theorem mu_time_order_strict_total (a b : mu_time_abs_t) :
    mu_time_is_before a a = false ∧
    mu_time_is_after a a = false ∧
    mu_time_is_before a b = mu_time_is_after b a ∧
    ((mu_time_is_before a b = true ∧ mu_time_is_before b a = false ∧ a ≠ b) ∨
     (mu_time_is_before a b = false ∧ mu_time_is_before b a = true ∧ a ≠ b) ∨
     (mu_time_is_before a b = false ∧ mu_time_is_before b a = false ∧ a = b)) := by
  obtain ⟨a1, a2⟩ := a
  obtain ⟨b1, b2⟩ := b
  have hbe : ∀ x1 x2 y1 y2 : Int,
      (mu_time_is_before ⟨x1, x2⟩ ⟨y1, y2⟩ = true) ↔
        (x1 < y1 ∨ (x1 = y1 ∧ x2 < y2)) := by
    intro x1 x2 y1 y2
    simp [mu_time_is_before]
  have hae : ∀ x1 x2 y1 y2 : Int,
      (mu_time_is_after ⟨x1, x2⟩ ⟨y1, y2⟩ = true) ↔
        (y1 < x1 ∨ (x1 = y1 ∧ y2 < x2)) := by
    intro x1 x2 y1 y2
    simp [mu_time_is_after]
  refine ⟨?_, ?_, ?_, ?_⟩
  · rw [Bool.eq_false_iff, Ne, hbe]
    omega
  · rw [Bool.eq_false_iff, Ne, hae]
    omega
  · rw [Bool.eq_iff_iff, hbe, hae]
    omega
  · simp only [Bool.eq_false_iff, Ne, hbe, mu_time_abs_t.mk.injEq]
    omega

/-- Claim C10: for every negative RelativeTime `delta`,
`mu_time_rel_to_millis delta` is total and equals the truncated-toward-zero
quotient `delta.tdiv 1_000_000` reduced modulo `2^32` into `[0, 2^32)`
(so it is not clamped to a zero millisecond count). -/
theorem mu_time_rel_to_millis_neg (delta : Int) (h : delta < 0) :
    ∃ k : Int,
      (mu_time_rel_to_millis delta : Int)
        = delta.tdiv 1000000 + 4294967296 * k ∧
      mu_time_rel_to_millis delta < 4294967296 := by
  refine ⟨-(delta.tdiv 1000000 / 4294967296), ?_, ?_⟩ <;>
    simp only [mu_time_rel_to_millis, uint32_of_int] <;> omega

/-- Witness for C10 at the concrete input `delta = -2_500_000_000`. -/
theorem mu_time_rel_to_millis_neg_witness :
    (-2500000000 : Int) < 0 ∧
    ∃ k : Int,
      (mu_time_rel_to_millis (-2500000000) : Int)
        = (-2500000000 : Int).tdiv 1000000 + 4294967296 * k ∧
      mu_time_rel_to_millis (-2500000000) < 4294967296 :=
  ⟨by norm_num, mu_time_rel_to_millis_neg (-2500000000) (by norm_num)⟩
